import Mathlib

/-!
Shallow embedding of `src/main.js` of tauri-signature-to-k8s-secret: a GitHub
action that scans a Tauri bundle directory for `.sig` sidecar files, selects a
main signature and reconciles it into a Kubernetes secret via kubectl.

The embedding models the pure data transformations of the source directly and
threads the impure collaborators (filesystem, sha256, clock, kubectl) as
explicit parameters or as a small state/fault model.
-/

namespace TauriSig

/-- JS `String.prototype.endsWith` restricted to what the source uses: `p` is a
prefix test on character lists. -/
def startsWithList : List Char → List Char → Bool
  | [], _ => true
  | _ :: _, [] => false
  | p :: ps, c :: cs => p = c && startsWithList ps cs

/-- JS `file.endsWith(suf)`: suffix test via reversed prefix test. -/
def strEndsWith (s suf : String) : Bool :=
  startsWithList suf.data.reverse s.data.reverse

/-- Substring occurrence on character lists (JS `String.prototype.includes`). -/
def containsList (pat : List Char) : List Char → Bool
  | [] => startsWithList pat []
  | c :: cs => startsWithList pat (c :: cs) || containsList pat cs

/-- JS `s.includes(pat)` as used by `findMainSignature`. -/
def strIncludes (s pat : String) : Bool := containsList pat.data s.data

/-- The whitespace characters JS `String.prototype.trim` strips that can occur
in the model (ASCII whitespace; the embedding fixes this as the trimmed set). -/
def isWS (c : Char) : Bool := c = ' ' || c = '\t' || c = '\n' || c = '\r'

/-- JS `content.trim()`: drop leading and trailing whitespace. -/
def strTrim (s : String) : String :=
  String.mk (((s.data.dropWhile isWS).reverse.dropWhile isWS).reverse)

/-- One character of `filename.replace(/[^a-zA-Z0-9._-]/g, '_')` (main.js:268):
characters outside `[A-Za-z0-9._-]` become the placeholder `_`. -/
def sanitizeChar (c : Char) : Char :=
  if c.isAlpha || c.isDigit || c = '.' || c = '_' || c = '-' then c else '_'

/-- The sanitization of main.js:268 applied to a whole base name (character by
character, as the global regex replace acts). -/
def sanitize (s : String) : String := String.mk (s.data.map sanitizeChar)

/-- Node `path.basename(file, ".sig")` for a bare directory-entry name that ends
in `.sig` (the caller filters on that): the suffix is stripped; for the name
`".sig"` node's `ext === path` early return yields `""`, which `dropRight 4`
also gives. -/
def basenameSig (file : String) : String :=
  String.mk (file.data.take (file.data.length - 4))

/-- Node `path.join(a, b)` for the non-empty relative segments the source
joins. -/
def pathJoin (a b : String) : String := a ++ "/" ++ b

/-- JS object insertion `obj[k] = v` for string-keyed objects whose keys are
never numeric-canonical (every key here holds a `-` or is a platform name):
insertion order is kept, and assigning an existing key replaces its value in
place. -/
def objInsert (m : List (String × α)) (k : String) (v : α) : List (String × α) :=
  if m.any (fun q => q.1 = k) then
    m.map (fun q => if q.1 = k then (k, v) else q)
  else
    m ++ [(k, v)]

/-- One discovered signature file (the object built at main.js:276-282). -/
structure SignatureRecord where
  content : String
  hash : String
  file : String
  timestamp : String
  path : String
deriving DecidableEq, Repr

/-- A platform's catalog: synthetic key to record, in insertion order. -/
abbrev Catalog := List (String × SignatureRecord)

/-- `this.signatures`: platform name to catalog, in insertion order. -/
abbrev SignatureSet := List (String × Catalog)

/-- The filesystem surface the collector reads, passed explicitly: existence
probe, directory listing (may fail) and text read (may fail). -/
structure FS where
  pathExists : String → Bool
  readdir : String → Except String (List String)
  readFile : String → Except String String

/-- The `PLATFORM_PATHS` table (main.js:8-12). -/
def PLATFORM_PATHS : String → Option (List String)
  | "windows" => some ["msi", "nsis"]
  | "macos" => some ["macos", "dmg"]
  | "linux" => some ["deb", "rpm", "appimage"]
  | _ => none

/-- The body of the `for (const sigFile of sigFiles)` loop (main.js:251-290)
acting on the pair (per-platform catalog, global `signatureCount`). `hashFn`
stands for sha256 hex and `now` for `new Date().toISOString()`. -/
def processSigFile (fs : FS) (hashFn : String → String) (now bundleType bundleDir : String)
    (st : Catalog × Nat) (sigFile : String) : Catalog × Nat :=
  let sigPath := pathJoin bundleDir sigFile
  if !(fs.pathExists sigPath) then st
  else
    match fs.readFile sigPath with
    | Except.error _ => st
    | Except.ok raw =>
      let sigContent := strTrim raw
      if sigContent = "" then st
      else
        let sigHash := hashFn sigContent
        let filename := sanitize (basenameSig sigFile)
        if filename = "" then st
        else
          let key := bundleType ++ "-" ++ filename
          (objInsert st.1 key
            { content := sigContent, hash := sigHash, file := sigFile,
              timestamp := now, path := sigPath }, st.2 + 1)

/-- The body of the `for (const bundleType of PLATFORM_PATHS[platform])` loop
(main.js:234-294): skip a missing or unreadable bundle directory, else fold the
`.sig` entries of its listing. -/
def processBundleType (fs : FS) (hashFn : String → String) (now bundlePath : String)
    (st : Catalog × Nat) (bundleType : String) : Catalog × Nat :=
  let bundleDir := pathJoin bundlePath bundleType
  if !(fs.pathExists bundleDir) then st
  else
    match fs.readdir bundleDir with
    | Except.error _ => st
    | Except.ok files =>
      let sigFiles := files.filter (fun f => strEndsWith f ".sig")
      sigFiles.foldl (processSigFile fs hashFn now bundleType bundleDir) st

/-- `extractPlatformSignatures(platform)` (main.js:231-297) for a known
platform's bundle-type list: fresh per-platform catalog, threaded global
count. -/
def extractPlatformSignatures (fs : FS) (hashFn : String → String)
    (now bundlePath : String) (bts : List String) (count : Nat) : Catalog × Nat :=
  bts.foldl (processBundleType fs hashFn now bundlePath) ([], count)

/-- One iteration of the platform loop of `extractSignatures` (main.js:187-201):
unknown platforms are skipped; a platform is recorded in `signatures` only when
its catalog is non-empty. -/
def extractStep (fs : FS) (hashFn : String → String) (now bundlePath : String)
    (acc : SignatureSet × Nat) (platform : String) : SignatureSet × Nat :=
  match PLATFORM_PATHS platform with
  | none => acc
  | some bts =>
    let res := extractPlatformSignatures fs hashFn now bundlePath bts acc.2
    if res.1.length > 0 then (objInsert acc.1 platform res.1, res.2)
    else (acc.1, res.2)

/-- `extractSignatures()` (main.js:145-209) after the bundle-path validation:
the platform loop, starting from the empty `signatures` object and count 0. -/
def extractSignatures (fs : FS) (hashFn : String → String) (now bundlePath : String)
    (platforms : List String) : SignatureSet × Nat :=
  platforms.foldl (extractStep fs hashFn now bundlePath) ([], 0)

/-- The per-platform preference predicate of `findMainSignature`
(main.js:347-362), a truthiness check on `file` followed by substring tests. -/
def prefersFile (platform : String) (r : SignatureRecord) : Bool :=
  if platform = "windows" then
    !(r.file = "") && strIncludes r.file ".msi.sig" && !(strIncludes r.file ".zip.sig")
  else if platform = "macos" then
    !(r.file = "") && (strIncludes r.file ".dmg.sig" || strIncludes r.file ".app.tar.gz.sig")
  else if platform = "linux" then
    !(r.file = "") && strIncludes r.file ".deb.sig"
  else false

/-- The inner record loop of `findMainSignature` for one platform
(main.js:346-363). -/
def findInCatalog (platform : String) : Catalog → Option SignatureRecord
  | [] => none
  | kr :: rest =>
    if prefersFile platform kr.2 then some kr.2 else findInCatalog platform rest

/-- The outer platform loop of `findMainSignature` (main.js:345-364). -/
def findPreferred : SignatureSet → Option SignatureRecord
  | [] => none
  | (p, cat) :: rest =>
    match findInCatalog p cat with
    | some r => some r
    | none => findPreferred rest

/-- The fallback loop of `findMainSignature` (main.js:367-373):
`Object.values(platformSigs)[0]` of the first platform whose catalog is
non-empty. -/
def firstRecord : SignatureSet → Option SignatureRecord
  | [] => none
  | (_, cat) :: rest =>
    match cat with
    | [] => firstRecord rest
    | kr :: _ => some kr.2

/-- `findMainSignature()` (main.js:343-376). -/
def findMainSignature (sigs : SignatureSet) : Option SignatureRecord :=
  match findPreferred sigs with
  | some r => some r
  | none => firstRecord sigs

/-- The UTF-8 bytes of one character, as `Buffer.from(string)` produces them. -/
def utf8Bytes (c : Char) : List Nat :=
  let n := c.toNat
  if n < 128 then [n]
  else if n < 2048 then [192 + n / 64, 128 + n % 64]
  else if n < 65536 then [224 + n / 4096, 128 + (n / 64) % 64, 128 + n % 64]
  else [240 + n / 262144, 128 + (n / 4096) % 64, 128 + (n / 64) % 64, 128 + n % 64]

/-- The UTF-8 byte sequence of a string. -/
def strBytes (s : String) : List Nat := s.data.flatMap utf8Bytes

/-- The base64 alphabet. -/
def b64Alphabet : String :=
  "ABCDEFGHIJKLMNOPQRSTUVWXYZabcdefghijklmnopqrstuvwxyz0123456789+/"

/-- The alphabet character of a sextet value (0-63). -/
def b64CharOf (n : Nat) : Char := b64Alphabet.data.getD n '='

/-- Index of a character in the base64 alphabet (0 for characters outside it,
which decoding of well-formed input never consults). -/
def b64ValAux : List Char → Char → Nat → Nat
  | [], _, _ => 0
  | a :: rest, c, i => if a = c then i else b64ValAux rest c (i + 1)

/-- Sextet value of an alphabet character. -/
def b64Val (c : Char) : Nat := b64ValAux b64Alphabet.data c 0

/-- Standard base64 of a byte list, three bytes to four characters, `=`
padding. -/
def base64Chunks : List Nat → List Char
  | [] => []
  | [a] => [b64CharOf (a / 4), b64CharOf (a % 4 * 16), '=', '=']
  | [a, b] => [b64CharOf (a / 4), b64CharOf (a % 4 * 16 + b / 16), b64CharOf (b % 16 * 4), '=']
  | a :: b :: c :: rest =>
    b64CharOf (a / 4) :: b64CharOf (a % 4 * 16 + b / 16) ::
    b64CharOf (b % 16 * 4 + c / 64) :: b64CharOf (c % 64) :: base64Chunks rest

/-- `Buffer.from(content).toString('base64')` (main.js:334). -/
def base64Encode (s : String) : String := String.mk (base64Chunks (strBytes s))

/-- Sextets back to bytes (the inverse direction of `base64Chunks`). -/
def sextetsToBytes : List Nat → List Nat
  | s1 :: s2 :: s3 :: s4 :: rest =>
    (s1 * 4 + s2 / 16) :: (s2 % 16 * 16 + s3 / 4) :: (s3 % 4 * 64 + s4) :: sextetsToBytes rest
  | [s1, s2, s3] => [s1 * 4 + s2 / 16, s2 % 16 * 16 + s3 / 4]
  | [s1, s2] => [s1 * 4 + s2 / 16]
  | _ => []

/-- Base64 decoding to the byte list: drop the `=` padding, map characters to
sextets, regroup into bytes. -/
def base64DecodeBytes (s : String) : List Nat :=
  sextetsToBytes ((s.data.filter (fun c => !(c = '='))).map b64Val)

/-- `prepareSecretData()` (main.js:327-341): only the single `keyPrefix` key is
ever set, holding base64 of the main signature's content; with no main
signature the data stays empty (a warning is logged and the empty object is
returned). -/
def prepareSecretData (keyPrefix : String) (sigs : SignatureSet) : List (String × String) :=
  match findMainSignature sigs with
  | some m => [(keyPrefix, base64Encode m.content)]
  | none => []

/-- The action's configuration surface as the constructor reads it
(main.js:14-25): six inputs, defaults applied to the falsy (empty) ones. There
is no payload-mode input. -/
structure ActionConfig where
  bundlePath : String
  kubeConfig : String
  ns : String
  secretName : String
  keyPrefix : String
  platforms : List String
deriving DecidableEq, Repr

/-- JS `String.prototype.split(sep)` for a one-character separator. -/
def splitOnChar (sep : Char) : List Char → List (List Char)
  | [] => [[]]
  | c :: rest =>
    let r := splitOnChar sep rest
    if c = sep then [] :: r
    else
      match r with
      | [] => [[c]]
      | h :: t => (c :: h) :: t

/-- The constructor (main.js:15-21): `core.getInput` values with `||` defaults,
and the platform list split on commas and trimmed. -/
def mkConfig (getInput : String → String) : ActionConfig :=
  { bundlePath := getInput "tauri-bundle-path"
    kubeConfig := getInput "kubernetes-config"
    ns := if getInput "kubernetes-namespace" = "" then "default"
          else getInput "kubernetes-namespace"
    secretName := getInput "secret-name"
    keyPrefix := if getInput "secret-key-prefix" = "" then "tauri-sig"
                 else getInput "secret-key-prefix"
    platforms :=
      ((splitOnChar ','
          (if getInput "platforms" = "" then "windows,macos,linux"
           else getInput "platforms").data).map
        (fun l => strTrim (String.mk l))) }

/-- Failure kinds of the `kubectl get secret` probe: the source's catch block
sees only that the command failed, never which of these it was. -/
inductive KubeErr where
  | notFound
  | connectivity
  | authFailure
  | other (msg : String)
deriving DecidableEq, Repr

/-- `checkSecretExists()` (main.js:318-325): `execSync('kubectl get secret …')`
in a try/catch. Success means "exists"; any failure means "does not exist". -/
def checkSecretExists (r : Except KubeErr Unit) : Bool :=
  match r with
  | Except.ok _ => true
  | Except.error _ => false

/-- The external store: at most one secret under the action's fixed
name/namespace, holding its data when present. -/
structure Cluster where
  secret : Option (List (String × String))
deriving DecidableEq, Repr

/-- Fault injection for the kubectl invocations: `true` makes that command fail
for an external reason (connectivity, permissions, …) on top of the store's own
semantics. -/
structure KubeEnv where
  getFails : Bool
  deleteFails : Bool
  applyFails : Bool
  createFails : Bool
  patchFails : Bool
deriving DecidableEq, Repr

/-- The kubectl calls the reconciler issues, with the payload they carry. -/
inductive KubeOp where
  | getSecret
  | deleteSecret
  | applyManifest (data : List (String × String))
  | createEmpty
  | patchChunk (chunk : List (String × String))
deriving DecidableEq, Repr

/-- `kubectl get secret` semantics: fails on an injected fault or when the
secret is absent. -/
def runGet (env : KubeEnv) (c : Cluster) : Except KubeErr Unit :=
  if env.getFails then Except.error KubeErr.connectivity
  else
    match c.secret with
    | some _ => Except.ok ()
    | none => Except.error KubeErr.notFound

/-- `kubectl delete secret` semantics: fails on an injected fault or when the
secret is absent; otherwise removes it. -/
def runDelete (env : KubeEnv) (c : Cluster) : Except String Cluster :=
  if env.deleteFails then Except.error "delete failed"
  else
    match c.secret with
    | some _ => Except.ok { secret := none }
    | none => Except.error "NotFound"

/-- `kubectl apply -f -` semantics on a whole secret manifest: create-or-replace
regardless of prior existence, unless an injected fault fails the call. -/
def runApply (env : KubeEnv) (c : Cluster) (data : List (String × String)) :
    Except String Cluster :=
  if env.applyFails then Except.error "apply failed"
  else
    let _ := c
    Except.ok { secret := some data }

/-- `kubectl create secret generic` semantics: fails on an injected fault or
when the secret already exists; otherwise creates it empty. -/
def runCreateEmpty (env : KubeEnv) (c : Cluster) : Except String Cluster :=
  if env.createFails then Except.error "create failed"
  else
    match c.secret with
    | some _ => Except.error "AlreadyExists"
    | none => Except.ok { secret := some [] }

/-- JSON merge patch of a chunk into the secret's data: each chunk key is set,
existing keys keep their position. -/
def mergeData (d chunk : List (String × String)) : List (String × String) :=
  chunk.foldl (fun acc kv => objInsert acc kv.1 kv.2) d

/-- `kubectl patch secret --type merge` semantics: fails on an injected fault
or when the secret is absent; otherwise merges the chunk. -/
def runPatchChunk (env : KubeEnv) (c : Cluster) (chunk : List (String × String)) :
    Except String Cluster :=
  if env.patchFails then Except.error "patch failed"
  else
    match c.secret with
    | some d => Except.ok { secret := some (mergeData d chunk) }
    | none => Except.error "NotFound"

/-- The `chunkSize = 5` slicing of `createSecretWithPatches` (main.js:423-428). -/
def chunksOf5 : List α → List (List α)
  | [] => []
  | x :: xs => (x :: xs.take 4) :: chunksOf5 (xs.drop 4)
termination_by l => l.length
decreasing_by
  simp only [List.length_cons, List.length_drop]
  omega

/-- The chunk loop of `createSecretWithPatches` (main.js:426-435): apply merge
patches in order, stop at the first failure. Returns the outcome and the trace
of patch calls made. -/
def applyChunks (env : KubeEnv) :
    Cluster → List (List (String × String)) → Except String Cluster × List KubeOp
  | c, [] => (Except.ok c, [])
  | c, ch :: rest =>
    match runPatchChunk env c ch with
    | Except.error e => (Except.error e, [KubeOp.patchChunk ch])
    | Except.ok c1 =>
      let r := applyChunks env c1 rest
      (r.1, KubeOp.patchChunk ch :: r.2)

/-- `createSecretWithPatches(secretData)` (main.js:414-440): create the secret
empty, then patch the data in chunks of five; any failure is rethrown with the
`Failed to create secret with patches` prefix. -/
def createSecretWithPatches (env : KubeEnv) (c : Cluster)
    (secretData : List (String × String)) : Except String Cluster × List KubeOp :=
  match runCreateEmpty env c with
  | Except.error e =>
    (Except.error ("Failed to create secret with patches: " ++ e), [KubeOp.createEmpty])
  | Except.ok c1 =>
    let r := applyChunks env c1 (chunksOf5 secretData)
    (match r.1 with
     | Except.error e => Except.error ("Failed to create secret with patches: " ++ e)
     | Except.ok c2 => Except.ok c2,
     KubeOp.createEmpty :: r.2)

/-- `createSecret(secretData)` (main.js:378-412): `kubectl apply` of the full
manifest via stdin; on failure, fall back to `createSecretWithPatches`. -/
def createSecret (env : KubeEnv) (c : Cluster) (secretData : List (String × String)) :
    Except String Cluster × List KubeOp :=
  match runApply env c secretData with
  | Except.ok c1 => (Except.ok c1, [KubeOp.applyManifest secretData])
  | Except.error _ =>
    let r := createSecretWithPatches env c secretData
    (r.1, KubeOp.applyManifest secretData :: r.2)

/-- `patchSecret(secretData)` (main.js:442-455): delete the existing secret,
tolerating (logging and ignoring) a delete failure, then run the create path. -/
def patchSecret (env : KubeEnv) (c : Cluster) (secretData : List (String × String)) :
    Except String Cluster × List KubeOp :=
  let c1 :=
    match runDelete env c with
    | Except.ok c1 => c1
    | Except.error _ => c
  let r := createSecret env c1 secretData
  (r.1, KubeOp.deleteSecret :: r.2)

/-- `updateKubernetesSecret()` (main.js:299-316): existence check, payload
construction, then patch-or-create; any failure is rethrown with the `Failed to
update Kubernetes secret` prefix. -/
def updateKubernetesSecret (env : KubeEnv) (c : Cluster) (keyPrefix : String)
    (sigs : SignatureSet) : Except String Cluster × List KubeOp :=
  let secretExists := checkSecretExists (runGet env c)
  let secretData := prepareSecretData keyPrefix sigs
  let r :=
    if secretExists then patchSecret env c secretData
    else createSecret env c secretData
  (match r.1 with
   | Except.error e => Except.error ("Failed to update Kubernetes secret: " ++ e)
   | Except.ok c1 => Except.ok c1,
   KubeOp.getSecret :: r.2)

/-- Hex digit for the JSON `\u00XX` escapes, lowercase as `JSON.stringify`
emits them. -/
def hexDigit (n : Nat) : Char :=
  if n < 10 then Char.ofNat (48 + n) else Char.ofNat (87 + n)

/-- One character of a JSON string per `JSON.stringify` (lone surrogates cannot
occur in the model's strings). -/
def jsonEscapeChar (c : Char) : String :=
  if c = '"' then "\\\""
  else if c = '\\' then "\\\\"
  else if c = Char.ofNat 8 then "\\b"
  else if c = Char.ofNat 9 then "\\t"
  else if c = Char.ofNat 10 then "\\n"
  else if c = Char.ofNat 12 then "\\f"
  else if c = Char.ofNat 13 then "\\r"
  else if c.toNat < 32 then
    "\\u00" ++ String.mk [hexDigit (c.toNat / 16), hexDigit (c.toNat % 16)]
  else String.singleton c

/-- JSON string literal of a string. -/
def jsonStr (s : String) : String :=
  "\"" ++ String.join (s.data.map jsonEscapeChar) ++ "\""

/-- JSON object from already-serialized member values, in insertion order as
`JSON.stringify` walks a JS object. -/
def jsonObj (fields : List (String × String)) : String :=
  "\x7b" ++ String.intercalate "," (fields.map (fun kv => jsonStr kv.1 ++ ":" ++ kv.2)) ++ "\x7d"

/-- `JSON.stringify` of a SignatureRecord, fields in construction order. -/
def recordJson (r : SignatureRecord) : String :=
  jsonObj [("content", jsonStr r.content), ("hash", jsonStr r.hash),
           ("file", jsonStr r.file), ("timestamp", jsonStr r.timestamp),
           ("path", jsonStr r.path)]

/-- `JSON.stringify` of one platform catalog. -/
def catalogJson (cat : Catalog) : String :=
  jsonObj (cat.map (fun kr => (kr.1, recordJson kr.2)))

/-- `JSON.stringify(this.signatures)` (main.js:71). -/
def signaturesJson (sigs : SignatureSet) : String :=
  jsonObj (sigs.map (fun pc => (pc.1, catalogJson pc.2)))

/-- The three `core.setOutput` values of a completed run (main.js:59-61 and
69-71). -/
structure Outputs where
  signaturesFound : String
  secretUpdated : String
  signatureHashes : String
deriving DecidableEq, Repr

/-- Outcome of the run tail: success with its outputs, final store state and
kubectl trace, or the top-level `setFailed` message with the trace so far. -/
inductive RunResult where
  | success (out : Outputs) (c : Cluster) (ops : List KubeOp)
  | failed (msg : String) (ops : List KubeOp)
deriving DecidableEq, Repr

/-- `run()` from the zero-count gate on (main.js:57-81), taking the collection
result as input: with count 0, set the three outputs and return without any
reconciler call; otherwise reconcile and either set the success outputs or fail
with the top-level handler's message. -/
def runAfterExtraction (env : KubeEnv) (c : Cluster) (keyPrefix : String)
    (sigs : SignatureSet) (count : Nat) : RunResult :=
  if count = 0 then
    RunResult.success { signaturesFound := "0", secretUpdated := "false",
                        signatureHashes := "\x7b\x7d" } c []
  else
    let r := updateKubernetesSecret env c keyPrefix sigs
    match r.1 with
    | Except.error e => RunResult.failed ("Action failed: " ++ e) r.2
    | Except.ok c1 =>
      RunResult.success { signaturesFound := toString count, secretUpdated := "true",
                          signatureHashes := signaturesJson sigs } c1 r.2

/-- The record iteration order the selection algorithm walks: platforms in
catalog insertion order, records in insertion order within each, tagged with
their platform. -/
def allInOrder (sigs : SignatureSet) : List (String × SignatureRecord) :=
  sigs.flatMap (fun pc => pc.2.map (fun kr => (pc.1, kr.2)))

theorem findInCatalog_eq (p : String) (cat : Catalog) :
    findInCatalog p cat =
      ((cat.map (fun kr => (p, kr.2))).find? (fun pr => prefersFile pr.1 pr.2)).map Prod.snd := by
  induction cat with
  | nil => rfl
  | cons kr rest ih =>
    simp only [findInCatalog, List.map_cons, List.find?_cons]
    cases h : prefersFile p kr.2 <;> simp [h, ih]

theorem findPreferred_eq (sigs : SignatureSet) :
    findPreferred sigs =
      ((allInOrder sigs).find? (fun pr => prefersFile pr.1 pr.2)).map Prod.snd := by
  induction sigs with
  | nil => rfl
  | cons pc rest ih =>
    obtain ⟨p, cat⟩ := pc
    simp only [findPreferred, allInOrder, List.flatMap_cons, List.find?_append]
    rw [findInCatalog_eq]
    cases hf : (cat.map (fun kr => (p, kr.2))).find? (fun pr => prefersFile pr.1 pr.2) with
    | none => simpa [allInOrder] using ih
    | some pr => simp

theorem firstRecord_eq (sigs : SignatureSet) :
    firstRecord sigs = (allInOrder sigs).head?.map Prod.snd := by
  induction sigs with
  | nil => rfl
  | cons pc rest ih =>
    obtain ⟨p, cat⟩ := pc
    cases cat with
    | nil => simpa [allInOrder, firstRecord] using ih
    | cons kr t => simp [allInOrder, firstRecord, List.head?_append]

theorem mem_objInsert {α : Type} {m : List (String × α)} {k : String} {v : α}
    {x : String × α} (h : x ∈ objInsert m k v) : x ∈ m ∨ x = (k, v) := by
  unfold objInsert at h
  by_cases hc : m.any (fun q => q.1 = k)
  · rw [if_pos hc] at h
    obtain ⟨q, hq, hx⟩ := List.mem_map.mp h
    by_cases hqk : q.1 = k
    · right
      rw [if_pos hqk] at hx
      exact hx.symm
    · left
      rw [if_neg hqk] at hx
      exact hx ▸ hq
  · rw [if_neg hc] at h
    rcases List.mem_append.mp h with h1 | h1
    · exact Or.inl h1
    · exact Or.inr (List.mem_singleton.mp h1)

theorem b64Val_charOf : ∀ n, n < 64 → b64Val (b64CharOf n) = n := by decide

theorem b64CharOf_ne : ∀ n, n < 64 → ¬(b64CharOf n = '=') := by decide

theorem decode_chunks : ∀ bs : List Nat, (∀ b ∈ bs, b < 256) →
    sextetsToBytes (((base64Chunks bs).filter (fun c => !(c = '='))).map b64Val) = bs
  | [], _ => rfl
  | [a], h => by
    have ha : a < 256 := h a (by simp)
    have e1 := b64Val_charOf (a / 4) (by omega)
    have e2 := b64Val_charOf (a % 4 * 16) (by omega)
    have n1 := b64CharOf_ne (a / 4) (by omega)
    have n2 := b64CharOf_ne (a % 4 * 16) (by omega)
    simp [base64Chunks, List.filter_cons, n1, n2, sextetsToBytes, e1, e2]
    omega
  | [a, b], h => by
    have ha : a < 256 := h a (by simp)
    have hb : b < 256 := h b (by simp)
    have e1 := b64Val_charOf (a / 4) (by omega)
    have e2 := b64Val_charOf (a % 4 * 16 + b / 16) (by omega)
    have e3 := b64Val_charOf (b % 16 * 4) (by omega)
    have n1 := b64CharOf_ne (a / 4) (by omega)
    have n2 := b64CharOf_ne (a % 4 * 16 + b / 16) (by omega)
    have n3 := b64CharOf_ne (b % 16 * 4) (by omega)
    simp [base64Chunks, List.filter_cons, n1, n2, n3, sextetsToBytes, e1, e2, e3]
    constructor <;> omega
  | a :: b :: c :: rest, h => by
    have ha : a < 256 := h a (by simp)
    have hb : b < 256 := h b (by simp)
    have hc : c < 256 := h c (by simp)
    have ih := decode_chunks rest (fun x hx => h x (by simp [hx]))
    have e1 := b64Val_charOf (a / 4) (by omega)
    have e2 := b64Val_charOf (a % 4 * 16 + b / 16) (by omega)
    have e3 := b64Val_charOf (b % 16 * 4 + c / 64) (by omega)
    have e4 := b64Val_charOf (c % 64) (by omega)
    have n1 := b64CharOf_ne (a / 4) (by omega)
    have n2 := b64CharOf_ne (a % 4 * 16 + b / 16) (by omega)
    have n3 := b64CharOf_ne (b % 16 * 4 + c / 64) (by omega)
    have n4 := b64CharOf_ne (c % 64) (by omega)
    simp [base64Chunks, List.filter_cons, n1, n2, n3, n4, sextetsToBytes, e1, e2, e3, e4, ih]
    refine ⟨by omega, by omega, by omega⟩

theorem utf8Bytes_lt (c : Char) : ∀ b ∈ utf8Bytes c, b < 256 := by
  have hv : c.toNat < 1114112 := by
    have h := c.valid
    simp only [UInt32.isValidChar, Nat.isValidChar] at h
    rcases h with h | ⟨h1, h2⟩ <;> [exact Nat.lt_trans h (by norm_num); exact h2]
  intro b hb
  unfold utf8Bytes at hb
  dsimp only at hb
  split_ifs at hb with h1 h2 h3 <;> simp at hb <;> omega

theorem strBytes_lt (s : String) : ∀ b ∈ strBytes s, b < 256 := by
  intro b hb
  unfold strBytes at hb
  obtain ⟨c, _, hc⟩ := List.mem_flatMap.mp hb
  exact utf8Bytes_lt c b hc

theorem decode_encode_bytes (s : String) :
    base64DecodeBytes (base64Encode s) = strBytes s := by
  simpa [base64Encode, base64DecodeBytes] using decode_chunks (strBytes s) (strBytes_lt s)

theorem extract_nonempty_invariant (fs : FS) (hashFn : String → String)
    (now bundlePath : String) (platforms : List String) (acc : SignatureSet × Nat)
    (hacc : ∀ x ∈ acc.1, x.2 ≠ ([] : Catalog)) :
    ∀ x ∈ (platforms.foldl (extractStep fs hashFn now bundlePath) acc).1,
      x.2 ≠ ([] : Catalog) := by
  induction platforms generalizing acc with
  | nil => exact hacc
  | cons p rest ih =>
    rw [List.foldl_cons]
    apply ih
    intro x hx
    unfold extractStep at hx
    cases hpp : PLATFORM_PATHS p with
    | none =>
      rw [hpp] at hx
      exact hacc x hx
    | some bts =>
      rw [hpp] at hx
      dsimp only at hx
      by_cases hlen :
          0 < (extractPlatformSignatures fs hashFn now bundlePath bts acc.2).1.length
      · rw [if_pos hlen] at hx
        rcases mem_objInsert hx with hm | he
        · exact hacc x hm
        · rw [he]
          dsimp only
          intro hcontra
          rw [hcontra] at hlen
          simp at hlen
      · rw [if_neg hlen] at hx
        exact hacc x hx

/-- Scenario fixture: the record collected from `msi/App_x64.msi.sig` with
content `abc123`. -/
def recA : SignatureRecord :=
  { content := "abc123", hash := "sha-abc123", file := "App_x64.msi.sig",
    timestamp := "2024-01-01T00:00:00.000Z", path := "bundle/msi/App_x64.msi.sig" }

/-- Scenario fixture: a one-record windows catalog. -/
def sigSetA : SignatureSet := [("windows", [("msi-App_x64.msi", recA)])]

/-- Scenario fixture: a linux record. -/
def recDeb : SignatureRecord :=
  { content := "debsig", hash := "sha-debsig", file := "App.deb.sig",
    timestamp := "2024-01-01T00:00:00.000Z", path := "bundle/deb/App.deb.sig" }

/-- Scenario fixture: a two-platform, two-record signature set. -/
def twoRecordSet : SignatureSet :=
  [("windows", [("msi-App_x64.msi", recA)]), ("linux", [("deb-App.deb", recDeb)])]

/-- A fault-free kubectl environment. -/
def envOk : KubeEnv :=
  { getFails := false, deleteFails := false, applyFails := false,
    createFails := false, patchFails := false }

/-- An environment whose delete call fails (everything else healthy). -/
def envDeleteFails : KubeEnv :=
  { getFails := false, deleteFails := true, applyFails := false,
    createFails := false, patchFails := false }

/-- A bundle tree holding one sidecar named exactly `.sig` with content `x`
under `bundle/msi`. -/
def fsDot : FS :=
  { pathExists := fun p => p = "bundle/msi" || p = "bundle/msi/.sig"
    readdir := fun p =>
      if p = "bundle/msi" then Except.ok [".sig"] else Except.error "ENOENT"
    readFile := fun p =>
      if p = "bundle/msi/.sig" then Except.ok "x" else Except.error "ENOENT" }

/-- A bundle tree with no category directory at all. -/
def fsEmpty : FS :=
  { pathExists := fun _ => false
    readdir := fun _ => Except.error "ENOENT"
    readFile := fun _ => Except.error "ENOENT" }

/-- A bundle tree whose `msi` directory holds two sidecars that sanitize to the
same catalog key (`App x64.msi.sig` and `App_x64.msi.sig`). -/
def fsColl : FS :=
  { pathExists := fun p =>
      p = "bundle/msi" || p = "bundle/msi/App x64.msi.sig" ||
        p = "bundle/msi/App_x64.msi.sig"
    readdir := fun p =>
      if p = "bundle/msi" then Except.ok ["App x64.msi.sig", "App_x64.msi.sig"]
      else Except.error "ENOENT"
    readFile := fun p =>
      if p = "bundle/msi/App x64.msi.sig" then Except.ok "first"
      else if p = "bundle/msi/App_x64.msi.sig" then Except.ok "second"
      else Except.error "ENOENT" }

/-- c1: Main-signature selection iterates platforms in catalog insertion order
and, within each platform, records in insertion order, returning the first
record satisfying its platform's predicate — windows: source file name contains
".msi.sig" and not ".zip.sig"; macos: contains ".dmg.sig" or ".app.tar.gz.sig";
linux: contains ".deb.sig" — and, when no record on any platform satisfies its
predicate, the first record of the first non-empty platform catalog in
insertion order. -/
theorem c1_main_signature_selection (sigs : SignatureSet) :
    (findMainSignature sigs =
      match (allInOrder sigs).find? (fun pr => prefersFile pr.1 pr.2) with
      | some pr => some pr.2
      | none => (allInOrder sigs).head?.map Prod.snd) ∧
    (∀ r : SignatureRecord,
      prefersFile "windows" r =
        (strIncludes r.file ".msi.sig" && !(strIncludes r.file ".zip.sig"))) ∧
    (∀ r : SignatureRecord,
      prefersFile "macos" r =
        (strIncludes r.file ".dmg.sig" || strIncludes r.file ".app.tar.gz.sig")) ∧
    (∀ r : SignatureRecord,
      prefersFile "linux" r = strIncludes r.file ".deb.sig") := by
  refine ⟨?_, ?_, ?_, ?_⟩
  · unfold findMainSignature
    rw [findPreferred_eq, firstRecord_eq]
    cases (allInOrder sigs).find? (fun pr => prefersFile pr.1 pr.2) <;> simp
  · intro r
    unfold prefersFile
    rw [if_pos rfl]
    by_cases hf : r.file = ""
    · rw [hf]; decide
    · simp [hf]
  · intro r
    unfold prefersFile
    rw [if_neg (by decide), if_pos rfl]
    by_cases hf : r.file = ""
    · rw [hf]; decide
    · simp [hf]
  · intro r
    unfold prefersFile
    rw [if_neg (by decide), if_neg (by decide), if_pos rfl]
    by_cases hf : r.file = ""
    · rw [hf]; decide
    · simp [hf]

/-- c2 counterexample: the sidecar named exactly `.sig` ends in the signature
suffix and has non-empty trimmed content, yet collection produces no record and
leaves the count at zero (node's basename strips the whole name, sanitization
yields the empty string, and the file is skipped). -/
theorem c2_counterexample :
    strEndsWith ".sig" ".sig" = true ∧ ¬(strTrim "x" = "") ∧
    sanitize (basenameSig ".sig") = "" ∧
    extractSignatures fsDot (fun s => s) "T0" "bundle" ["windows"] = ([], 0) := by
  refine ⟨rfl, by decide, rfl, by decide⟩

/-- c2 (amended): processing a sidecar file whose trimmed content and sanitized
basename are both non-empty inserts exactly one record under the key
`{category}-{sanitizedBasename}` and increments the global count by one;
a file whose content trims to empty produces no record and leaves the state
unchanged. -/
theorem c2_sidecar_record (fs : FS) (hashFn : String → String)
    (now bundleType bundleDir : String) (st : Catalog × Nat) (sigFile raw : String)
    (hx : fs.pathExists (pathJoin bundleDir sigFile) = true)
    (hr : fs.readFile (pathJoin bundleDir sigFile) = Except.ok raw) :
    (¬(strTrim raw = "") → ¬(sanitize (basenameSig sigFile) = "") →
      processSigFile fs hashFn now bundleType bundleDir st sigFile =
        (objInsert st.1 (bundleType ++ "-" ++ sanitize (basenameSig sigFile))
          { content := strTrim raw, hash := hashFn (strTrim raw), file := sigFile,
            timestamp := now, path := pathJoin bundleDir sigFile }, st.2 + 1)) ∧
    (strTrim raw = "" →
      processSigFile fs hashFn now bundleType bundleDir st sigFile = st) := by
  constructor
  · intro h1 h2
    simp [processSigFile, hx, hr, h1, h2]
  · intro h1
    simp [processSigFile, hx, hr, h1]

/-- c2 witness: a concrete valid sidecar (`App x64.msi.sig`, content `first`)
is inserted under `msi-App_x64.msi` with the count bumped from 0 to 1. -/
theorem c2_sidecar_record_witness :
    processSigFile fsColl (fun s => s) "T0" "msi" "bundle/msi" ([], 0) "App x64.msi.sig" =
      (objInsert [] ("msi" ++ "-" ++ sanitize (basenameSig "App x64.msi.sig"))
        { content := strTrim "first", hash := strTrim "first", file := "App x64.msi.sig",
          timestamp := "T0", path := pathJoin "bundle/msi" "App x64.msi.sig" }, 0 + 1) :=
  (c2_sidecar_record fsColl (fun s => s) "T0" "msi" "bundle/msi" ([], 0)
    "App x64.msi.sig" "first" (by decide) (by rfl)).1 (by decide) (by decide)

/-- c3 counterexample: on an empty SignatureSet, selection does return nothing,
but reconciliation does not terminate with an error — with a healthy store it
proceeds and creates the secret with an empty payload. -/
theorem c3_counterexample :
    findMainSignature ([] : SignatureSet) = none ∧
    updateKubernetesSecret envOk { secret := none } "tauri-sig" [] =
      (Except.ok { secret := some [] },
       [KubeOp.getSecret, KubeOp.applyManifest []]) := by
  constructor <;> rfl

/-- c3 (amended): when the SignatureSet contains no records, main-signature
selection returns no record and the payload is empty, but single-key
reconciliation is not aborted: whenever the apply call itself succeeds, it
proceeds and creates or replaces the secret with the empty payload (the
zero-count gate in `run`, not a selection error, is what keeps reconciliation
from being reached in the normal flow). -/
theorem c3_empty_set_proceeds (env : KubeEnv) (c : Cluster) (kp : String)
    (happly : env.applyFails = false) :
    findMainSignature ([] : SignatureSet) = none ∧
    prepareSecretData kp ([] : SignatureSet) = [] ∧
    ∃ c1, (updateKubernetesSecret env c kp []).1 = Except.ok c1 ∧
      c1.secret = some [] := by
  refine ⟨rfl, rfl, { secret := some [] }, ?_, rfl⟩
  cases hget : env.getFails <;> cases hsec : c.secret <;> cases hdel : env.deleteFails <;>
    simp [updateKubernetesSecret, checkSecretExists, runGet, patchSecret, createSecret,
      runApply, runDelete, prepareSecretData, findMainSignature, findPreferred,
      firstRecord, hget, hsec, hdel, happly]

/-- c3 witness: with a fault-free environment and an existing secret, the
amended statement holds at a concrete point. -/
theorem c3_empty_set_proceeds_witness :
    findMainSignature ([] : SignatureSet) = none ∧
    prepareSecretData "tauri-sig" ([] : SignatureSet) = [] ∧
    ∃ c1, (updateKubernetesSecret envOk { secret := some [("k", "v")] }
        "tauri-sig" []).1 = Except.ok c1 ∧ c1.secret = some [] :=
  c3_empty_set_proceeds envOk { secret := some [("k", "v")] } "tauri-sig" (by rfl)

/-- c4 counterexample: with two discovered records and prefix `tauri-sig`, the
payload holds exactly the single key `tauri-sig`; no `tauri-sig-metadata` key
and no per-record keys are emitted, so no full-metadata payload mode exists. -/
theorem c4_counterexample :
    prepareSecretData "tauri-sig" twoRecordSet = [("tauri-sig", "YWJjMTIz")] ∧
    (prepareSecretData "tauri-sig" twoRecordSet).lookup "tauri-sig-metadata" = none ∧
    (prepareSecretData "tauri-sig" twoRecordSet).length = 1 := by
  refine ⟨by decide, by decide, by decide⟩

/-- c4 (amended): the reconciler has exactly one payload-construction policy,
single-key mode: every entry of every produced SecretPayload has the key
`keyPrefix` and holds base64 of the selected main signature's content, and the
payload is that single pair; there is no full-metadata mode and no
configuration choice between modes. -/
theorem c4_single_key_only (kp k v : String) (sigs : SignatureSet)
    (h : (k, v) ∈ prepareSecretData kp sigs) :
    ∃ m, findMainSignature sigs = some m ∧
      prepareSecretData kp sigs = [(kp, base64Encode m.content)] ∧
      k = kp ∧ v = base64Encode m.content := by
  unfold prepareSecretData at h ⊢
  cases hm : findMainSignature sigs with
  | none =>
    rw [hm] at h
    exact absurd (h : (k, v) ∈ ([] : List (String × String))) (List.not_mem_nil _)
  | some m =>
    rw [hm] at h
    replace h : (k, v) ∈ [(kp, base64Encode m.content)] := h
    simp at h
    exact ⟨m, rfl, rfl, h.1, h.2⟩

/-- c4 witness: the amended statement at the concrete two-record set. -/
theorem c4_single_key_only_witness :
    ∃ m, findMainSignature twoRecordSet = some m ∧
      prepareSecretData "tauri-sig" twoRecordSet = [("tauri-sig", base64Encode m.content)] ∧
      "tauri-sig" = "tauri-sig" ∧ "YWJjMTIz" = base64Encode m.content :=
  c4_single_key_only "tauri-sig" "tauri-sig" "YWJjMTIz" twoRecordSet (by decide)

/-- c5: the existence probe reports "exists" exactly when the get query
succeeds, and reports "does not exist" on every failure, with no distinction
between a genuine not-found and any other query error. -/
theorem c5_secret_existence_check :
    (∀ r : Except KubeErr Unit, (checkSecretExists r = true ↔ ∃ u, r = Except.ok u)) ∧
    (∀ e : KubeErr, checkSecretExists (Except.error e) = false) ∧
    checkSecretExists (Except.error KubeErr.notFound) =
      checkSecretExists (Except.error KubeErr.connectivity) := by
  refine ⟨?_, fun _ => rfl, rfl⟩
  intro r
  cases r <;> simp [checkSecretExists]

/-- c6: when the existence check sees the secret, reconciliation deletes it and
then runs the same create path used for a fresh secret; the result is the same
whether or not the delete call fails (a delete failure is ignored and the
create attempt still made), and with the apply call healthy the reconciliation
succeeds with the new payload — it never fails with "already exists". -/
theorem c6_delete_then_recreate (env : KubeEnv) (c : Cluster) (kp : String)
    (sigs : SignatureSet) (d : List (String × String))
    (hex : c.secret = some d) (hget : env.getFails = false)
    (happly : env.applyFails = false) :
    updateKubernetesSecret env c kp sigs =
      (Except.ok { secret := some (prepareSecretData kp sigs) },
       [KubeOp.getSecret, KubeOp.deleteSecret,
        KubeOp.applyManifest (prepareSecretData kp sigs)]) := by
  cases hdel : env.deleteFails <;>
    simp [updateKubernetesSecret, checkSecretExists, runGet, patchSecret, createSecret,
      runApply, runDelete, hget, hex, hdel, happly]

/-- c6 witness: at a concrete existing secret with the delete call failing, the
create is still attempted and reconciliation replaces the secret. -/
theorem c6_delete_then_recreate_witness :
    updateKubernetesSecret envDeleteFails { secret := some [("k", "v")] }
        "tauri-sig" sigSetA =
      (Except.ok { secret := some (prepareSecretData "tauri-sig" sigSetA) },
       [KubeOp.getSecret, KubeOp.deleteSecret,
        KubeOp.applyManifest (prepareSecretData "tauri-sig" sigSetA)]) :=
  c6_delete_then_recreate envDeleteFails { secret := some [("k", "v")] }
    "tauri-sig" sigSetA [("k", "v")] (by rfl) (by rfl) (by rfl)

/-- c7: when collection yields a zero total count, the run succeeds without any
kubectl call from the reconciler and emits the outputs signatures-found "0",
secret-updated "false" and signature-hashes "{}". -/
theorem c7_zero_count_skips_reconciliation (fs : FS) (hashFn : String → String)
    (now bundlePath : String) (platforms : List String) (env : KubeEnv)
    (c : Cluster) (kp : String)
    (h : (extractSignatures fs hashFn now bundlePath platforms).2 = 0) :
    runAfterExtraction env c kp
        (extractSignatures fs hashFn now bundlePath platforms).1
        (extractSignatures fs hashFn now bundlePath platforms).2 =
      RunResult.success
        { signaturesFound := "0", secretUpdated := "false",
          signatureHashes := "\x7b\x7d" } c [] := by
  rw [h]
  rfl

/-- c7 witness: a bundle tree with no category directories yields count 0 and
the skipping run at a concrete point. -/
theorem c7_zero_count_witness :
    runAfterExtraction envOk { secret := none } "tauri-sig"
        (extractSignatures fsEmpty (fun s => s) "T0" "bundle" ["windows", "macos", "linux"]).1
        (extractSignatures fsEmpty (fun s => s) "T0" "bundle" ["windows", "macos", "linux"]).2 =
      RunResult.success
        { signaturesFound := "0", secretUpdated := "false",
          signatureHashes := "\x7b\x7d" } { secret := none } [] :=
  c7_zero_count_skips_reconciliation fsEmpty (fun s => s) "T0" "bundle"
    ["windows", "macos", "linux"] envOk { secret := none } "tauri-sig" (by decide)

/-- c8: when two sidecar files of the same category sanitize to the same
catalog key, the later-processed file's record overwrites the earlier one in
the catalog while the count is incremented once per file, ending two higher
with a single catalog entry holding the second file's record. -/
theorem c8_last_write_wins (fs : FS) (hashFn : String → String)
    (now bundlePath bundleType f1 f2 r1 r2 : String) (n : Nat)
    (hdir : fs.pathExists (pathJoin bundlePath bundleType) = true)
    (hls : fs.readdir (pathJoin bundlePath bundleType) = Except.ok [f1, f2])
    (he1 : strEndsWith f1 ".sig" = true) (he2 : strEndsWith f2 ".sig" = true)
    (hx1 : fs.pathExists (pathJoin (pathJoin bundlePath bundleType) f1) = true)
    (hx2 : fs.pathExists (pathJoin (pathJoin bundlePath bundleType) f2) = true)
    (hr1 : fs.readFile (pathJoin (pathJoin bundlePath bundleType) f1) = Except.ok r1)
    (hr2 : fs.readFile (pathJoin (pathJoin bundlePath bundleType) f2) = Except.ok r2)
    (ht1 : ¬(strTrim r1 = "")) (ht2 : ¬(strTrim r2 = ""))
    (hkey : sanitize (basenameSig f1) = sanitize (basenameSig f2))
    (hne : ¬(sanitize (basenameSig f2) = "")) :
    processBundleType fs hashFn now bundlePath ([], n) bundleType =
      ([(bundleType ++ "-" ++ sanitize (basenameSig f2),
         { content := strTrim r2, hash := hashFn (strTrim r2), file := f2,
           timestamp := now, path := pathJoin (pathJoin bundlePath bundleType) f2 })],
       n + 2) := by
  have hne1 : ¬(sanitize (basenameSig f1) = "") := by rw [hkey]; exact hne
  simp [processBundleType, processSigFile, objInsert, hdir, hls, he1, he2, hx1, hx2,
    hr1, hr2, ht1, ht2, hne, hne1, hkey, List.filter_cons]

/-- c8 witness: `App x64.msi.sig` (content `first`) then `App_x64.msi.sig`
(content `second`) under `msi` yield the single key `msi-App_x64.msi` with the
second record, count up by two. -/
theorem c8_last_write_wins_witness :
    processBundleType fsColl (fun s => s) "T0" "bundle" ([], 0) "msi" =
      ([("msi" ++ "-" ++ sanitize (basenameSig "App_x64.msi.sig"),
         { content := strTrim "second", hash := strTrim "second",
           file := "App_x64.msi.sig", timestamp := "T0",
           path := pathJoin (pathJoin "bundle" "msi") "App_x64.msi.sig" })],
       0 + 2) :=
  c8_last_write_wins fsColl (fun s => s) "T0" "bundle" "msi"
    "App x64.msi.sig" "App_x64.msi.sig" "first" "second" 0
    (by decide) (by rfl) (by decide) (by decide) (by decide) (by decide)
    (by rfl) (by rfl) (by decide) (by decide) (by decide) (by decide)

/-- c9: in single-key mode, whenever a main signature is selected the payload
is exactly the key `keyPrefix` holding base64 of its raw trimmed content, and
base64-decoding that value gives back precisely the record's content bytes. -/
theorem c9_single_key_roundtrip (kp : String) (sigs : SignatureSet)
    (m : SignatureRecord) (h : findMainSignature sigs = some m) :
    prepareSecretData kp sigs = [(kp, base64Encode m.content)] ∧
    base64DecodeBytes (base64Encode m.content) = strBytes m.content := by
  constructor
  · unfold prepareSecretData
    rw [h]
  · exact decode_encode_bytes m.content

/-- c9 witness: the scenario catalog (content `abc123`, prefix `tauri-sig`)
yields the single-pair payload and the round-trip at that record. -/
theorem c9_single_key_roundtrip_witness :
    prepareSecretData "tauri-sig" sigSetA = [("tauri-sig", base64Encode recA.content)] ∧
    base64DecodeBytes (base64Encode recA.content) = strBytes recA.content :=
  c9_single_key_roundtrip "tauri-sig" sigSetA recA (by decide)

/-- c10: every platform entry of a collected SignatureSet maps to a non-empty
catalog — a requested platform with zero discovered signatures contributes no
entry at all. -/
theorem c10_platform_entries_nonempty (fs : FS) (hashFn : String → String)
    (now bundlePath : String) (platforms : List String) (p : String) (cat : Catalog)
    (h : (p, cat) ∈ (extractSignatures fs hashFn now bundlePath platforms).1) :
    ¬(cat = []) := by
  have hall := extract_nonempty_invariant fs hashFn now bundlePath platforms ([], 0)
    (by intro x hx; exact absurd hx (List.not_mem_nil x))
  exact hall (p, cat) h

/-- c10 witness: the collision bundle collects one windows entry whose catalog
is non-empty. -/
theorem c10_platform_entries_nonempty_witness :
    ¬(([("msi-App_x64.msi",
        { content := "second", hash := "second", file := "App_x64.msi.sig",
          timestamp := "T0", path := "bundle/msi/App_x64.msi.sig" })] : Catalog) = []) :=
  c10_platform_entries_nonempty fsColl (fun s => s) "T0" "bundle"
    ["windows", "macos", "linux"] "windows" _ (by decide)

end TauriSig
